import Mathlib

/-!
Verification of the gemini-eda-cli specification against the source of
`packages/eda-cli/src` (parser.ts, commands.ts, eda-cli.ts, types.ts).

The embedding works over `List Char` buffers.  The four regular expressions
of `YosysParser` are embedded as explicit matchers:

* `CELLS_PATTERN   = /Number of cells:\s*(\d+)/i`
* `LEVELS_PATTERN  = /Longest path \(levels\):\s*(\d+)/i`
* `AREA_PATTERN    = /Chip area for module.*?:\s*(\d+(?:\.\d+)?)\s*um²/i`
* `WARNINGS_PATTERN = /Warning:\s*(\d+)/gi`

`String.match` with a non-global pattern returns the leftmost match, which is
embedded by `searchFirst`: try the pattern at position 0, 1, ... and stop at
the first position where the whole pattern matches.  JavaScript numbers are
idealised as `Nat`/`Int`/`ℚ` (the parsed metrics are exact small integers and
short decimal literals, where IEEE doubles behave exactly).
-/

namespace EdaCli

/-- Lower-cased code point, as the case-insensitive `i` flag canonicalises the
ASCII letters appearing in the pattern literals. -/
def lowerVal (c : Char) : Nat :=
  if 65 ≤ c.toNat ∧ c.toNat ≤ 90 then c.toNat + 32 else c.toNat

/-- Case-insensitive character comparison used by the `/i` patterns. -/
def charCaseEq (a b : Char) : Bool := decide (lowerVal a = lowerVal b)

/-- The regex class `\d`: exactly the ASCII digits 0-9. -/
def isDigitChar (c : Char) : Bool := decide (48 ≤ c.toNat ∧ c.toNat ≤ 57)

/-- The JavaScript regex class `\s` (ECMA-262 WhiteSpace ∪ LineTerminator). -/
def isJsSpace (c : Char) : Bool :=
  decide (c.toNat = 32 ∨ c.toNat = 9 ∨ c.toNat = 10 ∨ c.toNat = 11 ∨
    c.toNat = 12 ∨ c.toNat = 13 ∨ c.toNat = 0xa0 ∨ c.toNat = 0x1680 ∨
    (0x2000 ≤ c.toNat ∧ c.toNat ≤ 0x200a) ∨ c.toNat = 0x2028 ∨
    c.toNat = 0x2029 ∨ c.toNat = 0x202f ∨ c.toNat = 0x205f ∨
    c.toNat = 0x3000 ∨ c.toNat = 0xfeff)

/-- Characters that the regex `.` (without the `s` flag) does not match:
the ECMA-262 LineTerminator set. -/
def isDotExcluded (c : Char) : Bool :=
  decide (c.toNat = 10 ∨ c.toNat = 13 ∨ c.toNat = 0x2028 ∨ c.toNat = 0x2029)

/-- Value of a decimal digit character. -/
def digitVal (c : Char) : Nat := c.toNat - 48

/-- `parseInt(ds, 10)` on a nonempty all-digit capture. -/
def digitsToNat (ds : List Char) : Nat :=
  ds.foldl (fun n c => n * 10 + digitVal c) 0

/-- Match a literal pattern fragment case-insensitively at the head of the
input; on success return the remaining suffix. -/
def matchLit : List Char → List Char → Option (List Char)
  | [], s => some s
  | _ :: _, [] => none
  | p :: ps, c :: cs => if charCaseEq p c then matchLit ps cs else none

/-- The fragment `\s*(\d+)` that ends the cells/levels/warnings patterns:
greedy whitespace skip, then a captured maximal nonempty digit run.  Returns
the `parseInt` value of the capture and the suffix after the match.  (Greedy
`\s*` needs no backtracking here because `\s` and `\d` are disjoint.) -/
def matchSpacesInt (s : List Char) : Option (Nat × List Char) :=
  let r := s.dropWhile isJsSpace
  let ds := r.takeWhile isDigitChar
  if ds.isEmpty then none else some (digitsToNat ds, r.drop ds.length)

/-- Literal part of `CELLS_PATTERN`. -/
def cellsLit : List Char := "Number of cells:".data

/-- Literal part of `LEVELS_PATTERN`. -/
def levelsLit : List Char := "Longest path (levels):".data

/-- Literal part of `AREA_PATTERN`. -/
def areaLit : List Char := "Chip area for module".data

/-- Literal part of `WARNINGS_PATTERN`. -/
def warnLit : List Char := "Warning:".data

/-- Match `<lit>\s*(\d+)` at the head of the input, returning the captured
integer. -/
def matchScalarHere (lit s : List Char) : Option Nat :=
  (matchLit lit s).bind fun r => (matchSpacesInt r).map Prod.fst

/-- `CELLS_PATTERN` anchored at the head of the input. -/
def matchCellsHere (s : List Char) : Option Nat := matchScalarHere cellsLit s

/-- `LEVELS_PATTERN` anchored at the head of the input. -/
def matchLevelsHere (s : List Char) : Option Nat := matchScalarHere levelsLit s

/-- Leftmost-match search: `String.match` tries the pattern at each position
from the left and returns the first success. -/
def searchFirst (m : List Char → Option α) : List Char → Option α
  | [] => none
  | c :: cs =>
    match m (c :: cs) with
    | some v => some v
    | none => searchFirst m cs

/-- Exact decimal value of the capture `\d+(?:\.\d+)?` with integer digits
`ds` and fractional digits `fs` (`parseFloat`, idealised as the exact
rational the literal denotes). -/
def decimalValue (ds fs : List Char) : ℚ :=
  (digitsToNat ds : ℚ) + (digitsToNat fs : ℚ) / (10 : ℚ) ^ fs.length

/-- The tail `\s*um²` that ends `AREA_PATTERN`. -/
def matchUnits (s : List Char) : Bool :=
  (matchLit "um²".data (s.dropWhile isJsSpace)).isSome

/-- After the `:` of `AREA_PATTERN`: `\s*(\d+(?:\.\d+)?)\s*um²`.  The digit
runs are greedy-maximal; the optional fractional group is tried first and the
engine backtracks to the group-absent alternative if the tail fails.
(Shrinking a greedy `\d+` run can never help: the character after a shorter
run would be a digit, which fits neither `\.` nor `\s` nor `u`.) -/
def matchAreaNumber (s : List Char) : Option ℚ :=
  let r := s.dropWhile isJsSpace
  let ds := r.takeWhile isDigitChar
  if ds.isEmpty then none else
    let r2 := r.drop ds.length
    match r2 with
    | '.' :: r3 =>
      let fs := r3.takeWhile isDigitChar
      if fs.isEmpty then
        if matchUnits r2 then some (decimalValue ds []) else none
      else if matchUnits (r3.drop fs.length) then some (decimalValue ds fs)
      else if matchUnits r2 then some (decimalValue ds []) else none
    | _ => if matchUnits r2 then some (decimalValue ds []) else none

/-- The lazy fragment `.*?:` of `AREA_PATTERN` followed by its tail: at each
step first try to read `:` and the number/units tail here (lazy `*?` prefers
the shortest extension), else let `.` consume one non-LineTerminator
character and continue. -/
def areaScan : List Char → Option ℚ
  | [] => none
  | c :: cs =>
    match (if c = ':' then matchAreaNumber cs else none) with
    | some v => some v
    | none => if isDotExcluded c then none else areaScan cs

/-- `AREA_PATTERN` anchored at the head of the input. -/
def matchAreaHere (s : List Char) : Option ℚ :=
  (matchLit areaLit s).bind areaScan

/-- One match of `WARNINGS_PATTERN` anchored at the head of the input:
captured integer plus the suffix the global scan resumes from. -/
def matchWarnHere (s : List Char) : Option (Nat × List Char) :=
  (matchLit warnLit s).bind matchSpacesInt

/-- Fuel-indexed traversal for `matchAll`: scan left to right, resume right
after each match.  Every step either consumes the whole match (at least the
nine characters `Warning:` + one digit) or advances one position, so
`fuel = length of the input` always suffices. -/
def warnMatchesAux : Nat → List Char → List Nat
  | 0, _ => []
  | _, [] => []
  | fuel + 1, c :: cs =>
    match matchWarnHere (c :: cs) with
    | some (v, rest) => v :: warnMatchesAux fuel rest
    | none => warnMatchesAux fuel cs

/-- All matches of the global `WARNINGS_PATTERN`, in order, as
`combinedOutput.matchAll(...)` yields them. -/
def warnMatches (buf : List Char) : List Nat := warnMatchesAux buf.length buf

namespace YosysParser

/-- `extractCells`: match `CELLS_PATTERN`, `parseInt` the capture. -/
def extractCells (buf : List Char) : Option Nat := searchFirst matchCellsHere buf

/-- `extractLevels`: match `LEVELS_PATTERN`, `parseInt` the capture. -/
def extractLevels (buf : List Char) : Option Nat := searchFirst matchLevelsHere buf

/-- `extractArea`: match `AREA_PATTERN`, `parseFloat` the capture; `null`
when the pattern does not occur. -/
def extractArea (buf : List Char) : Option ℚ := searchFirst matchAreaHere buf

/-- `extractWarnings`: `for (match of matchAll) count += parseInt(match[1])`,
starting from `count = 0`. -/
def extractWarnings (buf : List Char) : Nat :=
  (warnMatches buf).foldl (fun count v => count + v) 0

end YosysParser

/-- parser.ts `EdaYosysOutput`. -/
structure EdaYosysOutput where
  stdout : String
  stderr : String
  exitCode : Int
  duration : Nat
deriving DecidableEq

/-- parser.ts `EdaParsedMetrics`.  `warnings` is nullable in the source type
although `extractWarnings` always returns a number. -/
structure EdaParsedMetrics where
  cells : Nat
  levels : Nat
  area_um2 : Option ℚ
  warnings : Option Nat
deriving DecidableEq

/-- parseMetrics line 31: `const combinedOutput =
`${output.stdout}\n${output.stderr}``. -/
def combinedOutput (out : EdaYosysOutput) : List Char :=
  (out.stdout ++ "\n" ++ out.stderr).data

namespace YosysParser

/-- `parseMetrics`: run the four extractors over the combined buffer; if
cells or levels is null the whole record is null.  (The try/catch around the
extractors is dead in this pure embedding: none of them throws.) -/
def parseMetrics (out : EdaYosysOutput) : Option EdaParsedMetrics :=
  match extractCells (combinedOutput out), extractLevels (combinedOutput out) with
  | some cells, some levels =>
    some ⟨cells, levels, extractArea (combinedOutput out),
      some (extractWarnings (combinedOutput out))⟩
  | _, _ => none

end YosysParser

/-! ## Persisted records (types.ts) -/

/-- types.ts `EdaProvenance`. -/
structure EdaProvenance where
  tool : String
  tool_version : String
  git_commit : Option String
  timestamp_utc : String
  host : String
  os : String
  gemini_eda_version : String
deriving DecidableEq

/-- types.ts `EdaRun`. -/
structure EdaRun where
  script_path : String
  seed : Option Int
  cwd : String
  cmd : String
  duration_ms : Nat
  exit_code : Int
deriving DecidableEq

/-- types.ts `EdaMetrics`.  Persisted JSON numbers are idealised as exact
rationals. -/
structure EdaMetrics where
  cells : ℚ
  levels : ℚ
  area_um2 : Option ℚ
  warnings : Option Nat
  wns_ns : Option ℚ
  tns_ns : Option ℚ
  utilization_pct : Option ℚ
deriving DecidableEq

/-- types.ts `EdaArtifacts`. -/
structure EdaArtifacts where
  log_path : String
  output_netlist : Option String
deriving DecidableEq

/-- types.ts `EdaResult`. -/
structure EdaResult where
  provenance : EdaProvenance
  run : EdaRun
  metrics : EdaMetrics
  artifacts : EdaArtifacts
deriving DecidableEq

/-- The `run_info` component of types.ts `EdaBaseline`. -/
structure EdaBaselineRunInfo where
  script_path : String
  seed : Option Int
deriving DecidableEq

/-- types.ts `EdaBaseline`. -/
structure EdaBaseline where
  metrics : EdaMetrics
  timestamp_utc : String
  run_info : EdaBaselineRunInfo
deriving DecidableEq

/-- The `cells` component of types.ts `EdaVerificationResult`. -/
structure CellsComparison where
  base : ℚ
  now : ℚ
  delta : ℚ
  delta_pct : ℚ
deriving DecidableEq

/-- The `levels` component of types.ts `EdaVerificationResult`. -/
structure LevelsComparison where
  base : ℚ
  now : ℚ
  delta : ℚ
deriving DecidableEq

/-- types.ts `EdaVerificationResult`. -/
structure EdaVerificationResult where
  accepted : Bool
  cells : CellsComparison
  levels : LevelsComparison
  message : String
deriving DecidableEq

/-- The `data` payloads attached to command results (typed `unknown` in
types.ts): the run and last commands attach the `EdaResult`, verify attaches
the `EdaVerificationResult`. -/
inductive EdaCommandData where
  | result (r : EdaResult)
  | verification (v : EdaVerificationResult)
deriving DecidableEq

/-- types.ts `EdaCommandResult`; `exitCode` is optional and absent on the
ordinary success paths. -/
structure EdaCommandResult where
  success : Bool
  message : String
  data : Option EdaCommandData := none
  exitCode : Option Nat := none
deriving DecidableEq

/-! ## EdaCommands (commands.ts) -/

namespace EdaCommands

/-- The message of `performVerification` (template literal plus `.trim()`;
number formatting idealised via `toString`). -/
def verificationMessage (baseCells nowCells baseLevels nowLevels : ℚ)
    (accepted : Bool) : String :=
  "cells  base: " ++ toString baseCells ++ "  now: " ++ toString nowCells ++
    "\nlevels base: " ++ toString baseLevels ++ "     now: " ++
    toString nowLevels ++ "\n" ++
    (if accepted then "✅ Accepted" else "❌ Rejected")

/-- commands.ts:450-482 `performVerification` (its two arguments are typed
`any`; only the numeric `cells` and `levels` fields are read). -/
def performVerification (baseline current : EdaMetrics) : EdaVerificationResult :=
  let cellsDelta := current.cells - baseline.cells
  let cellsDeltaPct := cellsDelta / baseline.cells * 100
  let levelsDelta := current.levels - baseline.levels
  let levelsOk : Bool := decide (current.levels ≤ baseline.levels)
  let cellsOk : Bool := decide (current.cells ≤ baseline.cells)
  let accepted := levelsOk && cellsOk
  { accepted := accepted
    cells := { base := baseline.cells, now := current.cells,
               delta := cellsDelta, delta_pct := cellsDeltaPct }
    levels := { base := baseline.levels, now := current.levels,
                delta := levelsDelta }
    message := verificationMessage baseline.cells current.cells
      baseline.levels current.levels accepted }

/-- commands.ts:415 — the `timeout` option handed to `spawn` (milliseconds). -/
def runYosysTimeoutMs : Nat := 30 * 60 * 1000

/-- commands.ts:429-435 — the close handler records `exitCode: code || 0`,
where `code` is `null` when the child terminated on a signal (in particular
after the wall-clock timeout kill) and the process exit code otherwise.
JavaScript `||` replaces the falsy values `null` and `0` by `0`. -/
def runYosysCloseExitCode (code : Option Int) : Int :=
  match code with
  | some c => if c = 0 then 0 else c
  | none => 0

/-- commands.ts:437-443 — the error handler records exit code 1. -/
def runYosysErrorExitCode : Int := 1

/-- commands.ts:408-411 — the argv built for the tool: `['-s', scriptPath]`
plus, when `seed !== undefined`, the extra
`['-p', 'abc -script +resyn2 -seed N']` pair. -/
def runYosysArgs (scriptPath : String) (seed : Option Int) : List String :=
  ["-s", scriptPath] ++
    (match seed with
     | some s => ["-p", "abc -script +resyn2 -seed " ++ toString s]
     | none => [])

/-- commands.ts:216 — the persisted `seed: options.seed || null`: JavaScript
`||` collapses the falsy seed `0` to `null`. -/
def persistedSeed (seed : Option Int) : Option Int :=
  match seed with
  | some s => if s = 0 then none else some s
  | none => none

/-- Widening of a parsed metrics record into the persisted `EdaMetrics`
(commands.ts:222-227: `...metrics` plus null P&R fields). -/
def metricsOfParsed (m : EdaParsedMetrics) : EdaMetrics :=
  { cells := (m.cells : ℚ), levels := (m.levels : ℚ), area_um2 := m.area_um2,
    warnings := m.warnings, wns_ns := none, tns_ns := none,
    utilization_pct := none }

/-- The values the run command obtains from its environment (version probe,
git lookup, clock, host introspection, recipe scan, context paths); they are
inputs of the pure model. -/
structure RunEnv where
  scriptPath : String
  cwd : String
  yosysVersion : Option String
  gitCommit : Option String
  timestampUtc : String
  host : String
  osStr : String
  outputNetlist : Option String
  logsDir : String
  lastRunDir : String
deriving DecidableEq

/-- commands.ts:204-232 — the assembled `EdaResult` (path join modeled as
`dir ++ "/" ++ file`). -/
def mkEdaResult (env : RunEnv) (seed : Option Int) (out : EdaYosysOutput)
    (m : EdaParsedMetrics) : EdaResult :=
  { provenance :=
      { tool := "yosys", tool_version := env.yosysVersion.getD "unknown",
        git_commit := env.gitCommit, timestamp_utc := env.timestampUtc,
        host := env.host, os := env.osStr, gemini_eda_version := "v0.7" }
    run :=
      { script_path := env.scriptPath, seed := persistedSeed seed,
        cwd := env.cwd, cmd := "yosys -s " ++ env.scriptPath,
        duration_ms := out.duration, exit_code := out.exitCode }
    metrics := metricsOfParsed m
    artifacts :=
      { log_path := env.logsDir ++ "/yosys.log",
        output_netlist := env.outputNetlist } }

/-- A file written by the run command. -/
inductive FileWrite where
  | resultFile (path : String) (r : EdaResult)
  | logFile (path : String) (content : String)
deriving DecidableEq

/-- commands.ts:190-246, the run command after the tool invocation: parse
the captured output; on parse failure return immediately (before either
write); on success write `result.json` and then the raw combined log. -/
def runPostProcess (env : RunEnv) (seed : Option Int) (out : EdaYosysOutput) :
    EdaCommandResult × List FileWrite :=
  match YosysParser.parseMetrics out with
  | none =>
    ({ success := false,
       message := "Failed to parse Yosys output. Check the log file for details.",
       exitCode := some 1 }, [])
  | some m =>
    let edaResult := mkEdaResult env seed out m
    let resultPath := env.lastRunDir ++ "/result.json"
    let logPath := env.logsDir ++ "/yosys.log"
    ({ success := true, message := "✅ Wrote " ++ resultPath,
       data := some (.result edaResult) },
     [.resultFile resultPath edaResult,
      .logFile logPath (out.stdout ++ "\n\n--- STDERR ---\n" ++ out.stderr)])

/-- commands.ts:145-255, the whole run command: the three preconditions
short-circuit with exit code 1 and no writes, then the tool runs and
`runPostProcess` finishes.  `errMsg` stands for the joined validation
error lines. -/
def run (scriptValid dirValid yosysOk : Bool) (env : RunEnv)
    (seed : Option Int) (out : EdaYosysOutput) (errMsg : String) :
    EdaCommandResult × List FileWrite :=
  if !scriptValid then
    ({ success := false, message := errMsg, exitCode := some 1 }, [])
  else if !dirValid then
    ({ success := false, message := errMsg, exitCode := some 1 }, [])
  else if !yosysOk then
    ({ success := false,
       message := "Yosys not found. Please install Yosys and ensure it is on your PATH.",
       exitCode := some 1 }, [])
  else runPostProcess env seed out

/-- commands.ts:275-282 — the Baseline built from the persisted last
Result. -/
def mkBaseline (r : EdaResult) : EdaBaseline :=
  { metrics := r.metrics, timestamp_utc := r.provenance.timestamp_utc,
    run_info := { script_path := r.run.script_path, seed := r.run.seed } }

/-- The two single-slot JSON files of a project. -/
structure EdaSlots where
  lastRun : Option EdaResult
  baseline : Option EdaBaseline
deriving DecidableEq

/-- commands.ts:260-299 `baselineSeed` as a transition on the two slots:
fails (exit 1, slots untouched) when no last Result exists, else overwrites
the baseline slot with `mkBaseline` of the last Result. -/
def baselineSeedStep (s : EdaSlots) : EdaCommandResult × EdaSlots :=
  match s.lastRun with
  | none =>
    ({ success := false,
       message := "No baseline found. Run /eda:baseline:seed after a successful /eda:run.",
       exitCode := some 1 }, s)
  | some r =>
    ({ success := true, message := "✔ Baseline saved" },
     { s with baseline := some (mkBaseline r) })

/-- The `Seed: ${result.run.seed || 'N/A'}` fragment of the last-command
summary (`||` collapses both `null` and `0` to `N/A`). -/
def seedDisplay (seed : Option Int) : String :=
  match seed with
  | none => "N/A"
  | some s => if s = 0 then "N/A" else toString s

/-- commands.ts:371-386 — the last-run summary (formatting idealised via
`toString`). -/
def lastSummary (r : EdaResult) : String :=
  "Last Run Summary: script " ++ r.run.script_path ++ ", seed " ++
    seedDisplay r.run.seed ++ ", exit code " ++ toString r.run.exit_code ++
    ", cells " ++ toString r.metrics.cells ++ ", levels " ++
    toString r.metrics.levels ++ ", timestamp " ++ r.provenance.timestamp_utc

/-- One invocation of the command surface, with every value a handler reads
from its environment (file existence, loaded records, tool output, thrown
filesystem errors) made explicit.  `fsError` selects the catch branch of the
handler's try/catch. -/
inductive EdaInvocation where
  | help
  | recipeInit (recipeExists force fsError : Bool)
  | recipeList (names : List String) (fsError : Bool)
  | run (scriptValid dirValid yosysOk : Bool) (env : RunEnv)
      (seed : Option Int) (out : EdaYosysOutput) (errMsg : String)
      (fsError : Bool)
  | baselineSeed (lastRun : Option EdaResult) (fsError : Bool)
  | verify (baseline : Option EdaBaseline) (lastRun : Option EdaResult)
      (fsError : Bool)
  | last (lastRun : Option EdaResult) (fsError : Bool)
  | unknown (msg : String)

/-- The catch branch every handler ends with: failure, exit code 1. -/
def catchResult (msg : String) : EdaCommandResult :=
  { success := false, message := msg, exitCode := some 1 }

/-- The outcome of each command of commands.ts (plus the unknown-command
results of eda-cli.ts:109-141), following the source branch for branch. -/
def execModel : EdaInvocation → EdaCommandResult
  | .help => { success := true, message := "EDA Commands: help, recipe:init, recipe:list, run, baseline:seed, verify, last" }
  | .recipeInit recipeExists force fsError =>
    if fsError then catchResult "Error creating recipe" else
    if recipeExists && !force then
      { success := false,
        message := "synth_resyn2.ys already exists. Use /eda:recipe:init --force to overwrite.",
        exitCode := some 1 }
    else { success := true, message := "Created recipes/synth_resyn2.ys" }
  | .recipeList names fsError =>
    if fsError then catchResult "Error listing recipes" else
    if names.isEmpty then
      { success := true,
        message := "No recipe files found. Run /eda:recipe:init to create one." }
    else
      { success := true,
        message := "Available recipes:\n" ++ String.intercalate "\n" names }
  | .run scriptValid dirValid yosysOk env seed out errMsg fsError =>
    if fsError then catchResult "Error running Yosys" else
    (run scriptValid dirValid yosysOk env seed out errMsg).1
  | .baselineSeed lastRun fsError =>
    if fsError then catchResult "Error saving baseline" else
    match lastRun with
    | none =>
      { success := false,
        message := "No baseline found. Run /eda:baseline:seed after a successful /eda:run.",
        exitCode := some 1 }
    | some _ => { success := true, message := "✔ Baseline saved" }
  | .verify baseline lastRun fsError =>
    if fsError then catchResult "Error during verification" else
    match baseline with
    | none =>
      { success := false,
        message := "No baseline found. Run /eda:baseline:seed after a successful /eda:run.",
        exitCode := some 1 }
    | some b =>
      match lastRun with
      | none =>
        { success := false,
          message := "No last run found. Run /eda:run first.",
          exitCode := some 1 }
      | some r =>
        let v := performVerification b.metrics r.metrics
        { success := v.accepted, message := v.message,
          data := some (.verification v),
          exitCode := some (if v.accepted then 0 else 1) }
  | .last lastRun fsError =>
    if fsError then catchResult "Error reading last run" else
    match lastRun with
    | none =>
      { success := false,
        message := "No last run found. Run /eda:run first.",
        exitCode := some 1 }
    | some r =>
      { success := true, message := lastSummary r, data := some (.result r) }
  | .unknown msg => { success := false, message := msg, exitCode := some 1 }

/-- eda-cli.ts:152-155 — the process exit status: `process.exitCode` is set
to `result.exitCode` only when the command failed and supplied a truthy
(nonzero) exit code; otherwise the process exits 0. -/
def effectiveExitCode (r : EdaCommandResult) : Nat :=
  if !r.success then
    match r.exitCode with
    | some c => if c = 0 then 0 else c
    | none => 0
  else 0

end EdaCommands

/-! ## Concrete fixtures referenced by witnesses and counterexamples -/

/-- A persisted metrics record with the given cells/levels and empty
optional fields. -/
def qorMetrics (cells levels : ℚ) : EdaMetrics :=
  { cells := cells, levels := levels, area_um2 := none, warnings := some 0,
    wns_ns := none, tns_ns := none, utilization_pct := none }

/-- Tool output whose stdout ends in a digit and whose stderr starts with
one: it distinguishes the newline-separated buffer the source builds from a
plain stdout-then-stderr concatenation. -/
def splitDigitsOut : EdaYosysOutput :=
  { stdout := "Longest path (levels): 7\nNumber of cells: 4", stderr := "2",
    exitCode := 0, duration := 0 }

/-- A well-formed tool output (cells, levels, one warning line). -/
def okOut : EdaYosysOutput :=
  { stdout := "Number of cells: 15432\nLongest path (levels): 27",
    stderr := "Warning: 3", exitCode := 0, duration := 1000 }

/-- The parser.test.ts invalid output: neither required pattern occurs. -/
def invalidOut : EdaYosysOutput :=
  { stdout := "Invalid output", stderr := "", exitCode := 0, duration := 1000 }

/-- A buffer containing the area pattern once, at its start. -/
def areaBuf : List Char := "Chip area for module top: 12.5 um²".data

/-- A fixed run environment. -/
def sampleEnv : EdaCommands.RunEnv :=
  { scriptPath := "recipes/synth_resyn2.ys", cwd := "/proj",
    yosysVersion := some "Yosys 0.33", gitCommit := none,
    timestampUtc := "2025-01-01T00:00:00.000Z", host := "host",
    osStr := "linux-x64", outputNetlist := some "build/top.synth.v",
    logsDir := "/proj/.gemini_eda/logs",
    lastRunDir := "/proj/.gemini_eda/last_run" }

/-- Tool output for a fixed successful run. -/
def sampleOut : EdaYosysOutput :=
  { stdout := "Number of cells: 200\nLongest path (levels): 15", stderr := "",
    exitCode := 0, duration := 1234 }

/-- The Result record persisted for `sampleOut` with seed 1. -/
def sampleResult : EdaResult :=
  EdaCommands.mkEdaResult sampleEnv (some 1) sampleOut ⟨200, 15, none, some 0⟩

/-- Slots holding `sampleResult` as the last run and no baseline. -/
def sampleSlots : EdaCommands.EdaSlots :=
  { lastRun := some sampleResult, baseline := none }

/-- A baseline of 100 cells / 10 levels. -/
def rejBaseline : EdaBaseline :=
  { metrics := qorMetrics 100 10, timestamp_utc := "2025-01-01T00:00:00.000Z",
    run_info := { script_path := "recipes/synth_resyn2.ys", seed := some 1 } }

/-- A last Result regressing to 101 cells at 10 levels. -/
def rejResult : EdaResult :=
  { sampleResult with metrics := qorMetrics 101 10 }

/-- `v` is the value captured at the first (leftmost) position of `buf` at
which the matcher succeeds — the value `String.match` returns for a
non-global pattern. -/
def FirstCapture (m : List Char → Option α) (buf : List Char) (v : α) : Prop :=
  ∃ k, k < buf.length ∧ m (List.drop k buf) = some v ∧
    ∀ j, j < k → m (List.drop j buf) = none

/-! ## Helper lemmas -/

theorem charCaseEq_refl (c : Char) : charCaseEq c c = true := by
  simp [charCaseEq]

theorem matchLit_append (p rest : List Char) : matchLit p (p ++ rest) = some rest := by
  induction p with
  | nil => rfl
  | cons c cs ih => simp [matchLit, charCaseEq_refl, ih]

theorem dropWhile_append_all {p : Char → Bool} {ws : List Char} (t : List Char)
    (h : ws.all p = true) : (ws ++ t).dropWhile p = t.dropWhile p := by
  induction ws with
  | nil => simp
  | cons c cs ih =>
    simp only [List.all_cons, Bool.and_eq_true] at h
    simp [List.dropWhile_cons, h.1, ih h.2]

theorem dropWhile_cons_of_neg {p : Char → Bool} {c : Char} (t : List Char)
    (h : p c = false) : (c :: t).dropWhile p = c :: t := by
  simp [List.dropWhile_cons, h]

theorem takeWhile_append_all {p : Char → Bool} {ds : List Char} (t : List Char)
    (h : ds.all p = true) : (ds ++ t).takeWhile p = ds ++ t.takeWhile p := by
  induction ds with
  | nil => simp
  | cons c cs ih =>
    simp only [List.all_cons, Bool.and_eq_true] at h
    simp [List.takeWhile_cons, h.1, ih h.2]

theorem isDigitChar_not_jsSpace {c : Char} (h : isDigitChar c = true) :
    isJsSpace c = false := by
  simp only [isDigitChar, decide_eq_true_eq] at h
  simp only [isJsSpace, decide_eq_false_iff_not]
  omega

theorem matchSpacesInt_append {ws ds : List Char} (post : List Char)
    (hws : ws.all isJsSpace = true) (hne : ds ≠ [])
    (hds : ds.all isDigitChar = true) :
    (matchSpacesInt (ws ++ (ds ++ post))).map Prod.fst =
      some (digitsToNat (ds ++ post.takeWhile isDigitChar)) := by
  obtain ⟨d, ds', rfl⟩ := List.exists_cons_of_ne_nil hne
  have hd : isDigitChar d = true := by
    simp only [List.all_cons, Bool.and_eq_true] at hds
    exact hds.1
  simp only [matchSpacesInt, List.cons_append]
  rw [dropWhile_append_all _ hws,
    dropWhile_cons_of_neg _ (isDigitChar_not_jsSpace hd),
    show d :: (ds' ++ post) = (d :: ds') ++ post from rfl,
    takeWhile_append_all post hds]
  simp

theorem matchScalarHere_append (lit : List Char) {ws ds : List Char}
    (post : List Char) (hws : ws.all isJsSpace = true) (hne : ds ≠ [])
    (hds : ds.all isDigitChar = true) :
    matchScalarHere lit (lit ++ (ws ++ (ds ++ post))) =
      some (digitsToNat (ds ++ post.takeWhile isDigitChar)) := by
  unfold matchScalarHere
  rw [matchLit_append]
  simpa using matchSpacesInt_append post hws hne hds

theorem searchFirst_eq_some_iff (m : List Char → Option α) (buf : List Char)
    (v : α) : searchFirst m buf = some v ↔ FirstCapture m buf v := by
  induction buf with
  | nil => simp [searchFirst, FirstCapture]
  | cons c cs ih =>
    unfold FirstCapture at ih ⊢
    cases hm : m (c :: cs) with
    | some w =>
      simp only [searchFirst, hm]
      constructor
      · intro h
        exact ⟨0, by simp, by simpa [hm] using h,
          fun j hj => absurd hj (Nat.not_lt_zero j)⟩
      · rintro ⟨k, hk, hmk, hless⟩
        cases k with
        | zero => rw [List.drop_zero, hm] at hmk; exact hmk
        | succ k' =>
          have h0 := hless 0 (Nat.succ_pos k')
          rw [List.drop_zero, hm] at h0
          exact absurd h0 (by simp)
    | none =>
      simp only [searchFirst, hm]
      rw [ih]
      constructor
      · rintro ⟨k, hk, hmk, hless⟩
        refine ⟨k + 1, by simpa using hk, by simpa using hmk, ?_⟩
        intro j hj
        cases j with
        | zero => rw [List.drop_zero]; exact hm
        | succ j' =>
          have := hless j' (by omega)
          simpa using this
      · rintro ⟨k, hk, hmk, hless⟩
        cases k with
        | zero => rw [List.drop_zero, hm] at hmk; exact absurd hmk (by simp)
        | succ k' =>
          refine ⟨k', by simpa using hk, by simpa using hmk, ?_⟩
          intro j hj
          have := hless (j + 1) (by omega)
          simpa using this

theorem searchFirst_eq_none_iff (m : List Char → Option α) (buf : List Char) :
    searchFirst m buf = none ↔ ∀ k, k < buf.length → m (List.drop k buf) = none := by
  induction buf with
  | nil => simp [searchFirst]
  | cons c cs ih =>
    cases hm : m (c :: cs) with
    | some w =>
      simp only [searchFirst, hm]
      constructor
      · intro h; exact absurd h (by simp)
      · intro h
        have h0 := h 0 (by simp)
        rw [List.drop_zero, hm] at h0
        exact absurd h0 (by simp)
    | none =>
      simp only [searchFirst, hm]
      rw [ih]
      constructor
      · intro h k hk
        cases k with
        | zero => rw [List.drop_zero]; exact hm
        | succ k' => simpa using h k' (by simpa using hk)
      · intro h k hk
        have := h (k + 1) (by simpa using hk)
        simpa using this

/-! ## Claims -/

/-- C1: the QoR verification of a baseline metrics record against a current
metrics record accepts if and only if current.levels ≤ baseline.levels and
current.cells ≤ baseline.cells, and the outcome carries
cellsDelta = current.cells − baseline.cells,
levelsDelta = current.levels − baseline.levels and
cellsDeltaPct = cellsDelta / baseline.cells · 100, for every pair of records
with numeric cells and levels fields. -/
theorem performVerification_spec (baseline current : EdaMetrics) :
    ((EdaCommands.performVerification baseline current).accepted = true ↔
      current.levels ≤ baseline.levels ∧ current.cells ≤ baseline.cells) ∧
    (EdaCommands.performVerification baseline current).cells.delta =
      current.cells - baseline.cells ∧
    (EdaCommands.performVerification baseline current).levels.delta =
      current.levels - baseline.levels ∧
    (EdaCommands.performVerification baseline current).cells.delta_pct =
      (current.cells - baseline.cells) / baseline.cells * 100 := by
  refine ⟨?_, rfl, rfl, rfl⟩
  simp [EdaCommands.performVerification]

/-- C7: the run is killed by the 30-minute wall-clock timeout, so the close
handler receives `code = null`; the recorded synthetic exit code is then 0
(JavaScript `code || 0`), not the nonzero code the claim states. -/
theorem runYosys_timeout_records_zero :
    EdaCommands.runYosysTimeoutMs = 30 * 60 * 1000 ∧
    EdaCommands.runYosysCloseExitCode none = 0 := by
  exact ⟨rfl, rfl⟩

/-- C10: with seed 0, the tool invocation still receives the extra
`-p abc -script +resyn2 -seed 0` parameter (0 is not undefined), but the
persisted run record stores seed = null (`options.seed || null` collapses
0), so the executed command and the persisted provenance disagree. -/
theorem run_seed_zero_mismatch :
    (∀ sp : String, EdaCommands.runYosysArgs sp (some 0) =
      ["-s", sp, "-p", "abc -script +resyn2 -seed 0"]) ∧
    EdaCommands.persistedSeed (some 0) = none ∧
    (∀ (env : EdaCommands.RunEnv) (out : EdaYosysOutput) (m : EdaParsedMetrics),
      (EdaCommands.mkEdaResult env (some 0) out m).run.seed = none) ∧
    EdaCommands.persistedSeed (some 0) ≠ some 0 := by
  refine ⟨fun sp => rfl, rfl, fun env out m => rfl, by decide⟩

/-- C2 counterexample: the extractor does not match on plain
stdout-then-stderr concatenation — the source inserts a newline between the
two streams.  On `splitDigitsOut` the first cells capture of the
concatenated buffer is 42, while the extractor returns cells = 4. -/
theorem parseMetrics_buffer_counterexample :
    YosysParser.extractCells
      ((splitDigitsOut.stdout ++ splitDigitsOut.stderr).data) = some 42 ∧
    (YosysParser.parseMetrics splitDigitsOut).map EdaParsedMetrics.cells =
      some 4 ∧ (4 : Nat) ≠ 42 := by decide

/-- C3: for every tool output whose combined buffer lacks the cells pattern
or lacks the levels pattern, parseMetrics returns null — never a zero-filled
record — regardless of the area or warning patterns. -/
theorem parseMetrics_missing_required (out : EdaYosysOutput)
    (h : (∀ k, k < (combinedOutput out).length →
            matchCellsHere (List.drop k (combinedOutput out)) = none) ∨
         (∀ k, k < (combinedOutput out).length →
            matchLevelsHere (List.drop k (combinedOutput out)) = none)) :
    YosysParser.parseMetrics out = none := by
  unfold YosysParser.parseMetrics
  rcases h with h | h
  · have hc : YosysParser.extractCells (combinedOutput out) = none := by
      unfold YosysParser.extractCells
      exact (searchFirst_eq_none_iff _ _).mpr h
    rw [hc]
  · have hl : YosysParser.extractLevels (combinedOutput out) = none := by
      unfold YosysParser.extractLevels
      exact (searchFirst_eq_none_iff _ _).mpr h
    rw [hl]
    cases hc : YosysParser.extractCells (combinedOutput out) <;> rfl

/-- Witness for C3 at the parser.test.ts invalid output. -/
theorem parseMetrics_missing_required_witness :
    YosysParser.parseMetrics invalidOut = none :=
  parseMetrics_missing_required invalidOut (Or.inl (by decide))

/-- C6: when the tool invocation completes but parsing the captured output
fails, the run command reports failure and persists no Result — but it also
writes nothing else: the raw-log write (commands.ts:239-240) sits on the
success path after the early ParseFailure return, so, contrary to the claim,
no log file is written either. -/
theorem run_parse_failure_no_writes :
    YosysParser.parseMetrics invalidOut = none ∧
    (EdaCommands.runPostProcess sampleEnv none invalidOut).1.success = false ∧
    (EdaCommands.runPostProcess sampleEnv none invalidOut).1.exitCode = some 1 ∧
    (EdaCommands.runPostProcess sampleEnv none invalidOut).2 = [] := by decide

/-- C2 (amended: the single buffer is stdout, then a newline, then stderr —
the source inserts a newline between the two streams): whenever that buffer
contains the cells pattern (`Number of cells:` + whitespace + a nonempty
digit run) and the levels pattern (`Longest path (levels):` + whitespace + a
nonempty digit run), extraction succeeds and yields cells equal to the
integer captured at the first occurrence of the cells pattern and levels
equal to the integer captured at the first occurrence of the levels
pattern. -/
theorem parseMetrics_first_capture (out : EdaYosysOutput)
    (pre1 ws1 ds1 post1 pre2 ws2 ds2 post2 : List Char)
    (h1 : combinedOutput out = pre1 ++ (cellsLit ++ (ws1 ++ (ds1 ++ post1))))
    (hws1 : ws1.all isJsSpace = true) (hne1 : ds1 ≠ [])
    (hds1 : ds1.all isDigitChar = true)
    (h2 : combinedOutput out = pre2 ++ (levelsLit ++ (ws2 ++ (ds2 ++ post2))))
    (hws2 : ws2.all isJsSpace = true) (hne2 : ds2 ≠ [])
    (hds2 : ds2.all isDigitChar = true) :
    ∃ c l, FirstCapture matchCellsHere (combinedOutput out) c ∧
      FirstCapture matchLevelsHere (combinedOutput out) l ∧
      YosysParser.parseMetrics out =
        some ⟨c, l, YosysParser.extractArea (combinedOutput out),
          some (YosysParser.extractWarnings (combinedOutput out))⟩ := by
  have hc : matchCellsHere (List.drop pre1.length (combinedOutput out)) =
      some (digitsToNat (ds1 ++ post1.takeWhile isDigitChar)) := by
    rw [h1, List.drop_left]
    exact matchScalarHere_append cellsLit post1 hws1 hne1 hds1
  have hlen1 : pre1.length < (combinedOutput out).length := by
    rw [h1]
    have h16 : cellsLit.length = 16 := by decide
    simp only [List.length_append]
    omega
  have hl : matchLevelsHere (List.drop pre2.length (combinedOutput out)) =
      some (digitsToNat (ds2 ++ post2.takeWhile isDigitChar)) := by
    rw [h2, List.drop_left]
    exact matchScalarHere_append levelsLit post2 hws2 hne2 hds2
  have hlen2 : pre2.length < (combinedOutput out).length := by
    rw [h2]
    have h22 : levelsLit.length = 22 := by decide
    simp only [List.length_append]
    omega
  rcases hcell : YosysParser.extractCells (combinedOutput out) with _ | c
  · exfalso
    unfold YosysParser.extractCells at hcell
    rw [searchFirst_eq_none_iff] at hcell
    have := hcell pre1.length hlen1
    rw [hc] at this
    exact absurd this (by simp)
  · rcases hlev : YosysParser.extractLevels (combinedOutput out) with _ | l
    · exfalso
      unfold YosysParser.extractLevels at hlev
      rw [searchFirst_eq_none_iff] at hlev
      have := hlev pre2.length hlen2
      rw [hl] at this
      exact absurd this (by simp)
    · refine ⟨c, l, ?_, ?_, ?_⟩
      · unfold YosysParser.extractCells at hcell
        exact (searchFirst_eq_some_iff _ _ _).mp hcell
      · unfold YosysParser.extractLevels at hlev
        exact (searchFirst_eq_some_iff _ _ _).mp hlev
      · unfold YosysParser.parseMetrics
        rw [hcell, hlev]

/-- Witness for C2 at `okOut`. -/
theorem parseMetrics_first_capture_witness :
    ∃ c l, FirstCapture matchCellsHere (combinedOutput okOut) c ∧
      FirstCapture matchLevelsHere (combinedOutput okOut) l ∧
      YosysParser.parseMetrics okOut =
        some ⟨c, l, YosysParser.extractArea (combinedOutput okOut),
          some (YosysParser.extractWarnings (combinedOutput okOut))⟩ :=
  parseMetrics_first_capture okOut "".data " ".data "15432".data
    "\nLongest path (levels): 27\nWarning: 3".data
    "Number of cells: 15432\n".data " ".data "27".data "\nWarning: 3".data
    (by decide) (by decide) (by decide) (by decide)
    (by decide) (by decide) (by decide) (by decide)

/-- C5: if the area pattern occurs, the extracted area is the decimal
captured at its first occurrence; if it does not occur, the extracted area
is null — never zero — and a successful parse stores exactly that field. -/
theorem extractArea_spec (buf : List Char) :
    (∀ v : ℚ, FirstCapture matchAreaHere buf v →
      YosysParser.extractArea buf = some v) ∧
    ((∀ k, k < buf.length → matchAreaHere (List.drop k buf) = none) →
      YosysParser.extractArea buf = none ∧
      YosysParser.extractArea buf ≠ some 0) ∧
    (∀ (out : EdaYosysOutput) (m : EdaParsedMetrics),
      YosysParser.parseMetrics out = some m →
      m.area_um2 = YosysParser.extractArea (combinedOutput out)) := by
  refine ⟨fun v hv => ?_, fun h => ?_, fun out m hm => ?_⟩
  · unfold YosysParser.extractArea
    exact (searchFirst_eq_some_iff _ _ _).mpr hv
  · have hn : YosysParser.extractArea buf = none := by
      unfold YosysParser.extractArea
      exact (searchFirst_eq_none_iff _ _).mpr h
    exact ⟨hn, by simp [hn]⟩
  · unfold YosysParser.parseMetrics at hm
    rcases hc : YosysParser.extractCells (combinedOutput out) with _ | c <;>
      rcases hl : YosysParser.extractLevels (combinedOutput out) with _ | l <;>
      rw [hc, hl] at hm <;> simp_all
    rw [← hm]

/-- Witness for C5: the area pattern present (value 12.5) and absent. -/
theorem extractArea_spec_witness :
    YosysParser.extractArea areaBuf = some (25 / 2) ∧
    YosysParser.extractArea "no area here".data = none := by
  constructor
  · have hv : decimalValue "12".data "5".data = 25 / 2 := by
      have h1 : digitsToNat "12".data = 12 := by decide
      have h2 : digitsToNat "5".data = 5 := by decide
      unfold decimalValue
      rw [h1, h2]
      norm_num
    have hmatch : matchAreaHere (List.drop 0 areaBuf) =
        some (decimalValue "12".data "5".data) := rfl
    exact (extractArea_spec areaBuf).1 (25 / 2)
      ⟨0, by decide, hv ▸ hmatch, by decide⟩
  · exact ((extractArea_spec "no area here".data).2.1 (by decide)).1

theorem foldl_add_eq_sum (l : List Nat) (init : Nat) :
    l.foldl (fun a b => a + b) init = init + l.sum := by
  induction l generalizing init with
  | nil => simp
  | cons x xs ih =>
    rw [List.foldl_cons, ih, List.sum_cons]
    omega

/-- C4: the extracted warnings value is the sum of the integers captured by
the occurrences of the warning pattern (not the occurrence count); zero
occurrences give 0, not null (a successful parse stores `some` of the sum);
and the text `Warning: 2` + `Warning: 1` yields warnings = 3. -/
theorem extractWarnings_spec :
    (∀ buf : List Char,
      YosysParser.extractWarnings buf = (warnMatches buf).sum) ∧
    (∀ buf : List Char, warnMatches buf = [] →
      YosysParser.extractWarnings buf = 0) ∧
    warnMatches ("Warning: 2\nWarning: 1".data) = [2, 1] ∧
    YosysParser.extractWarnings ("Warning: 2\nWarning: 1".data) = 3 ∧
    (∀ (out : EdaYosysOutput) (m : EdaParsedMetrics),
      YosysParser.parseMetrics out = some m →
      m.warnings = some (YosysParser.extractWarnings (combinedOutput out))) := by
  have hsum : ∀ buf : List Char,
      YosysParser.extractWarnings buf = (warnMatches buf).sum := by
    intro buf
    unfold YosysParser.extractWarnings
    rw [foldl_add_eq_sum]
    omega
  refine ⟨hsum, fun buf h => by rw [hsum, h]; rfl, by decide, by decide,
    fun out m hm => ?_⟩
  unfold YosysParser.parseMetrics at hm
  rcases hc : YosysParser.extractCells (combinedOutput out) with _ | c <;>
    rcases hl : YosysParser.extractLevels (combinedOutput out) with _ | l <;>
    rw [hc, hl] at hm <;> simp_all
  rw [← hm]

/-- Witness for C4: no occurrences give 0, and a parsed record stores the
sum. -/
theorem extractWarnings_spec_witness :
    YosysParser.extractWarnings ("no warnings at all".data) = 0 ∧
    (⟨15432, 27, none, some 3⟩ : EdaParsedMetrics).warnings =
      some (YosysParser.extractWarnings (combinedOutput okOut)) :=
  ⟨extractWarnings_spec.2.1 ("no warnings at all".data) (by decide),
   extractWarnings_spec.2.2.2.2 okOut ⟨15432, 27, none, some 3⟩ (by decide)⟩

/-- C9: baseline seeding is idempotent — for a fixed persisted last Result,
two invocations produce the identical Baseline record (the metrics, the
timestamp copied from the Result provenance, the script path and the seed),
and seeding fails (exit code 1, slots untouched) when no last Result
exists. -/
theorem baselineSeed_idempotent (s : EdaCommands.EdaSlots) :
    (∀ r, s.lastRun = some r →
      (EdaCommands.baselineSeedStep s).2.baseline =
        some (EdaCommands.mkBaseline r) ∧
      EdaCommands.baselineSeedStep (EdaCommands.baselineSeedStep s).2 =
        EdaCommands.baselineSeedStep s ∧
      (EdaCommands.mkBaseline r).metrics = r.metrics ∧
      (EdaCommands.mkBaseline r).timestamp_utc = r.provenance.timestamp_utc ∧
      (EdaCommands.mkBaseline r).run_info.script_path = r.run.script_path ∧
      (EdaCommands.mkBaseline r).run_info.seed = r.run.seed) ∧
    (s.lastRun = none →
      (EdaCommands.baselineSeedStep s).1.success = false ∧
      (EdaCommands.baselineSeedStep s).1.exitCode = some 1 ∧
      (EdaCommands.baselineSeedStep s).2 = s) := by
  constructor
  · intro r hr
    obtain ⟨lr, bl⟩ := s
    simp only [EdaCommands.EdaSlots.lastRun] at hr
    subst hr
    refine ⟨rfl, ?_, rfl, rfl, rfl, rfl⟩
    rfl
  · intro h
    obtain ⟨lr, bl⟩ := s
    simp only [EdaCommands.EdaSlots.lastRun] at h
    subst h
    exact ⟨rfl, rfl, rfl⟩

/-- Witness for C9 at the sample slots. -/
theorem baselineSeed_idempotent_witness :
    (EdaCommands.baselineSeedStep sampleSlots).2.baseline =
      some (EdaCommands.mkBaseline sampleResult) ∧
    EdaCommands.baselineSeedStep (EdaCommands.baselineSeedStep sampleSlots).2 =
      EdaCommands.baselineSeedStep sampleSlots :=
  ⟨((baselineSeed_idempotent sampleSlots).1 sampleResult rfl).1,
   ((baselineSeed_idempotent sampleSlots).1 sampleResult rfl).2.1⟩

theorem execModel_wellExited (inv : EdaCommands.EdaInvocation) :
    (EdaCommands.execModel inv).success = true ∧
      EdaCommands.effectiveExitCode (EdaCommands.execModel inv) = 0 ∨
    (EdaCommands.execModel inv).success = false ∧
      EdaCommands.effectiveExitCode (EdaCommands.execModel inv) = 1 := by
  cases inv with
  | help => exact Or.inl ⟨rfl, rfl⟩
  | recipeInit re f fe =>
    cases fe <;> cases re <;> cases f <;>
      first
      | exact Or.inl ⟨rfl, rfl⟩
      | exact Or.inr ⟨rfl, rfl⟩
  | recipeList names fe =>
    cases fe <;> cases names <;>
      first
      | exact Or.inl ⟨rfl, rfl⟩
      | exact Or.inr ⟨rfl, rfl⟩
  | run sv dv yo env seed out errMsg fe =>
    cases fe with
    | true => exact Or.inr ⟨rfl, rfl⟩
    | false =>
      cases sv with
      | false => exact Or.inr ⟨rfl, rfl⟩
      | true =>
        cases dv with
        | false => exact Or.inr ⟨rfl, rfl⟩
        | true =>
          cases yo with
          | false => exact Or.inr ⟨rfl, rfl⟩
          | true =>
            have hmodel : EdaCommands.execModel
                (.run true true true env seed out errMsg false) =
                (EdaCommands.runPostProcess env seed out).1 := rfl
            rw [hmodel]
            unfold EdaCommands.runPostProcess
            rcases hp : YosysParser.parseMetrics out with _ | m
            · exact Or.inr ⟨rfl, rfl⟩
            · exact Or.inl ⟨rfl, rfl⟩
  | baselineSeed lr fe =>
    cases fe <;> cases lr <;>
      first
      | exact Or.inl ⟨rfl, rfl⟩
      | exact Or.inr ⟨rfl, rfl⟩
  | verify b lr fe =>
    cases fe with
    | true => exact Or.inr ⟨rfl, rfl⟩
    | false =>
      cases b with
      | none => exact Or.inr ⟨rfl, rfl⟩
      | some bb =>
        cases lr with
        | none => exact Or.inr ⟨rfl, rfl⟩
        | some rr =>
          simp only [EdaCommands.execModel]
          cases hacc : (EdaCommands.performVerification bb.metrics rr.metrics).accepted <;>
            simp [EdaCommands.effectiveExitCode, hacc]
  | last lr fe =>
    cases fe <;> cases lr <;>
      first
      | exact Or.inl ⟨rfl, rfl⟩
      | exact Or.inr ⟨rfl, rfl⟩
  | unknown msg => exact Or.inr ⟨rfl, rfl⟩

/-- C8: every command outcome uses only exit codes 0 and 1 — the effective
process exit status is 0 exactly when the command succeeds and 1 on every
reported failure — and a verification rejection is still delivered as a
well-formed VerificationOutcome in the result data (not an exception), with
exit code 1. -/
theorem exit_code_spec :
    (∀ inv : EdaCommands.EdaInvocation,
      (EdaCommands.effectiveExitCode (EdaCommands.execModel inv) = 0 ∨
        EdaCommands.effectiveExitCode (EdaCommands.execModel inv) = 1) ∧
      ((EdaCommands.execModel inv).success = true ↔
        EdaCommands.effectiveExitCode (EdaCommands.execModel inv) = 0)) ∧
    (∀ (b : EdaBaseline) (r : EdaResult),
      (EdaCommands.performVerification b.metrics r.metrics).accepted = false →
      EdaCommands.execModel (.verify (some b) (some r) false) =
        { success := false,
          message := (EdaCommands.performVerification b.metrics r.metrics).message,
          data := some (.verification
            (EdaCommands.performVerification b.metrics r.metrics)),
          exitCode := some 1 }) := by
  constructor
  · intro inv
    rcases execModel_wellExited inv with ⟨h1, h2⟩ | ⟨h1, h2⟩
    · exact ⟨Or.inl h2, by simp [h1, h2]⟩
    · exact ⟨Or.inr h2, by simp [h1, h2]⟩
  · intro b r h
    simp [EdaCommands.execModel, h]

/-- Witness for C8: the help command exits 0; a rejected verification (100
cells baseline, 101 cells now) is a well-formed outcome with exit code 1. -/
theorem exit_code_spec_witness :
    EdaCommands.effectiveExitCode (EdaCommands.execModel .help) = 0 ∧
    EdaCommands.execModel (.verify (some rejBaseline) (some rejResult) false) =
      { success := false,
        message := (EdaCommands.performVerification rejBaseline.metrics
          rejResult.metrics).message,
        data := some (.verification (EdaCommands.performVerification
          rejBaseline.metrics rejResult.metrics)),
        exitCode := some 1 } :=
  ⟨((exit_code_spec.1 .help).2).mp rfl,
   exit_code_spec.2 rejBaseline rejResult (by decide)⟩

end EdaCli
